import Mathlib

/-!
# Verification of the hump-yard folder-monitoring daemon core

A shallow embedding, in Lean 4, of the rule-matching, plugin-registry,
event-dispatch and process-supervision logic of the hump-yard repository
(packages `hump_yard`, `folder_monitor`, `file_monitor`, `hamp_yard`),
together with theorems settling the specification claims about it.

Modelling conventions:
* Filesystem paths in canonically resolved form are modelled as their list
  of components (`FsPath`); `components` converts an absolute path string.
* Python exceptions are modelled with `Except`; Python `logging` calls are
  modelled as explicit `LogEvent` values carrying their level.
* JSON configuration values are modelled by `ConfigValue`, restricted to
  the value shapes the folder-entry parsing code distinguishes
  (strings, booleans, lists of strings).
-/

namespace HumpYard

/-- A filesystem path in canonically resolved form: its list of components.
`Path("/watch/sub/a.jpg").resolve()` is modelled as `["watch", "sub", "a.jpg"]`. -/
abbrev FsPath := List String

/-- Split a character list at every `'/'` (like Python `str.split("/")`). -/
def splitSlash : List Char → List (List Char)
  | [] => [[]]
  | '/' :: rest => [] :: splitSlash rest
  | c :: rest =>
    match splitSlash rest with
    | [] => [[c]]
    | g :: gs => (c :: g) :: gs

/-- Split an absolute path string into its components, as
`pathlib.Path` does (empty components from repeated or trailing
separators are dropped). -/
def components (s : String) : FsPath :=
  ((splitSlash s.data).map String.mk).filter (fun c => c ≠ "")

/-- Lower-case a string, as Python `str.lower` does on ASCII data. -/
def lowerStr (s : String) : String :=
  String.mk (s.data.map Char.toLower)

/-- `pathlib.PurePath.suffix` of a final path component: the substring from
the last dot, provided that dot is neither the first nor the last character
of the name (so `"a.jpg" ↦ ".jpg"`, `".bashrc" ↦ ""`, `"a." ↦ ""`). -/
def pySuffix (name : String) : String :=
  let cs := name.data
  match cs.reverse.indexOf? '.' with
  | none => ""
  | some j =>
    let i := cs.length - 1 - j
    if 0 < i ∧ i < cs.length - 1 then String.mk (cs.drop i) else ""

/-- The JSON value shapes that the folder-entry parsing code
(`FolderConfig.__init__`, `ConfigReader._parse_config`) distinguishes. -/
inductive ConfigValue where
  | str (s : String)
  | bool (b : Bool)
  | strList (xs : List String)
  deriving DecidableEq, Repr

/-- Python truthiness of a configuration value (`if not v` tests). -/
def ConfigValue.truthy : ConfigValue → Bool
  | .str s => s ≠ ""
  | .bool b => b
  | .strList xs => xs ≠ []

/-- A raw folder entry of the `folders` sequence of the configuration
source: a JSON object, i.e. an ordered association list with unique keys. -/
abbrev Entry := List (String × ConfigValue)

/-- `FolderConfig` from `hump_yard/config_reader.py`: one monitored-folder
configuration as built by `FolderConfig.__init__`. -/
structure FolderConfig where
  path : String
  recursive : Bool
  extensions : List String
  plugin : String
  pluginConfig : List (String × ConfigValue)
  deriving DecidableEq, Repr

/-- `FolderConfig.should_process_file`: the extension filter.  An empty
`extensions` list accepts every file; otherwise the file's lower-cased
suffix must equal some configured extension lower-cased. -/
def FolderConfig.should_process_file (fc : FolderConfig) (filePath : FsPath) : Bool :=
  if fc.extensions.isEmpty then true
  else
    let fileExt := lowerStr (pySuffix (filePath.getLastD ""))
    fc.extensions.any (fun ext => fileExt == lowerStr ext)

/-- The per-rule test of `ConfigReader.get_folder_config`: the rule's
resolved path is a (component-wise) prefix of the resolved file path —
`Path.is_relative_to` — and the extension filter accepts the file. -/
def ruleMatches (fc : FolderConfig) (filePath : FsPath) : Bool :=
  (components fc.path).isPrefixOf filePath && fc.should_process_file filePath

/-- `ConfigReader.get_folder_config` from `hump_yard/config_reader.py`:
return the first configured rule, in declared order, whose path contains
the file and whose extension filter accepts it; `none` when no rule does. -/
def get_folder_config (folders : List FolderConfig) (filePath : FsPath) :
    Option FolderConfig :=
  folders.find? (fun fc => ruleMatches fc filePath)

/-! ## Logging -/

/-- Python `logging` levels used by the daemon. -/
inductive LogLevel where
  | debug
  | info
  | warning
  | error
  deriving DecidableEq, Repr

/-- One emitted log record: its level and message. -/
structure LogEvent where
  level : LogLevel
  msg : String
  deriving DecidableEq, Repr

/-! ## Plugins and the plugin registry (`hump_yard/base_plugin.py`) -/

/-- A Python exception value. -/
structure PyErr where
  msg : String
  deriving DecidableEq, Repr

/-- A constructed `FileProcessorPlugin` instance: its identity and the
behaviour of its `can_handle` and `process` methods.  `process` returning
`Except.error e` models the method raising the exception `e`. -/
structure Plugin where
  name : String
  version : String
  canHandle : String → Bool
  processResult : String → List (String × ConfigValue) → Except PyErr Bool

/-- The `PluginManager.plugins` dict: an insertion-ordered association
list from plugin name to plugin instance, with unique keys. -/
abbrev Registry := List (String × Plugin)

/-- `PluginManager.register_plugin`: raise `ValueError` when the name is
already registered (returned as `some` error message, with the registry
unchanged); otherwise add the plugin under its name at the end. -/
def register_plugin (reg : Registry) (p : Plugin) : Option String × Registry :=
  if (reg.lookup p.name).isSome then
    (some ("Plugin " ++ p.name ++ " already registered"), reg)
  else
    (none, reg ++ [(p.name, p)])

/-- `PluginManager.get_plugin`: `self.plugins.get(name)`. -/
def get_plugin (reg : Registry) (name : String) : Option Plugin :=
  reg.lookup name

/-! ## The event dispatcher (`folder_monitor/daemon.py`, `FileMonitorDaemon.process_file`) -/

/-- Observable effects of one dispatch: log records and invocations of the
plugin error hook `on_error`. -/
inductive DispatchEvent where
  | log (level : LogLevel) (msg : String)
  | errorHook (filePath : String) (e : PyErr)

/-- `FileMonitorDaemon.process_file` from `folder_monitor/daemon.py`:
match the file against the rules, resolve the plugin, check
`can_handle`, and invoke `process` inside a `try`/`except` that logs any
exception and forwards it to `plugin.on_error`.  The result is the list
of observable events; `Except.error` would model an exception escaping
`process_file` (which the `try`/`except` prevents). -/
def process_file (reg : Registry) (folders : List FolderConfig)
    (filePath : String) : Except PyErr (List DispatchEvent) :=
  match get_folder_config folders (components filePath) with
  | none => .ok [.log .debug ("No configuration found for file: " ++ filePath)]
  | some fc =>
    match get_plugin reg fc.plugin with
    | none => .ok [.log .error ("Plugin " ++ fc.plugin ++ " not found for " ++ filePath)]
    | some plugin =>
      if plugin.canHandle filePath then
        match plugin.processResult filePath fc.pluginConfig with
        | .ok true =>
          .ok [.log .info ("Processing " ++ filePath ++ " with " ++ fc.plugin),
               .log .info ("Successfully processed " ++ filePath)]
        | .ok false =>
          .ok [.log .info ("Processing " ++ filePath ++ " with " ++ fc.plugin),
               .log .error ("Failed to process " ++ filePath)]
        | .error e =>
          .ok [.log .info ("Processing " ++ filePath ++ " with " ++ fc.plugin),
               .log .error ("Exception while processing " ++ filePath ++ ": " ++ e.msg),
               .errorHook filePath e]
      else
        .ok [.log .warning ("Plugin " ++ fc.plugin ++ " cannot handle " ++ filePath)]

/-- Sequential dispatch of a stream of file-creation events, as the
watcher thread performs it: each event is processed in turn, and an
exception escaping one dispatch would abort the remaining ones. -/
def dispatchAll (reg : Registry) (folders : List FolderConfig)
    (files : List String) : Except PyErr (List (List DispatchEvent)) :=
  match files with
  | [] => .ok []
  | f :: rest => do
    let evs ← process_file reg folders f
    let rests ← dispatchAll reg folders rest
    return evs :: rests

/-! ## The abandoned `hamp_yard` dispatcher (`hamp_yard/daemon.py`) -/

/-- `FileMonitorDaemon.get_folder_config` from `hamp_yard/daemon.py`: the
configuration is a mapping from folder path to a plain config dict, and a
file matches the first folder (in insertion order) that contains it; no
extension filter. -/
def hamp_get_folder_config (foldersCfg : List (String × Entry))
    (filePath : FsPath) : Option Entry :=
  (foldersCfg.find? (fun p => (components p.1).isPrefixOf filePath)).map (fun p => p.2)

/-- `FileMonitorDaemon.process_file` from `hamp_yard/daemon.py`.  Unlike
the `folder_monitor` version there is no `try`/`except` around
`plugin.process`: an exception raised there escapes `process_file`
(modelled by the `.error e` result) and `on_error` is never invoked. -/
def hamp_process_file (reg : Registry) (foldersCfg : List (String × Entry))
    (filePath : String) : Except PyErr (List DispatchEvent) :=
  match hamp_get_folder_config foldersCfg (components filePath) with
  | none => .ok []
  | some cfg =>
    match cfg.lookup "plugin" with
    | none => .ok [.log .warning ("No plugin configured for " ++ filePath)]
    | some v =>
      if v.truthy then
        match v with
        | .str s =>
          match get_plugin reg s with
          | none => .ok [.log .error ("Plugin " ++ s ++ " not found for " ++ filePath)]
          | some plugin =>
            if plugin.canHandle filePath then
              match plugin.processResult filePath cfg with
              | .ok true =>
                .ok [.log .info ("Processing " ++ filePath ++ " with " ++ s),
                     .log .info ("Successfully processed " ++ filePath)]
              | .ok false =>
                .ok [.log .info ("Processing " ++ filePath ++ " with " ++ s),
                     .log .error ("Failed to process " ++ filePath)]
              | .error e => .error e
            else
              .ok [.log .warning ("Plugin " ++ s ++ " cannot handle " ++ filePath)]
        | _ => .ok [.log .error ("Plugin not found for " ++ filePath)]
      else
        .ok [.log .warning ("No plugin configured for " ++ filePath)]

/-! ## Parsing folder entries (`hump_yard/config_reader.py`,
`file_monitor/config_reader.py`) -/

/-- Why `FolderConfig.__init__` rejected a raw entry: a `KeyError` for a
missing required field, or any other exception while building the rule. -/
inductive ParseSkip where
  | missingField (f : String)
  | badValue
  deriving DecidableEq, Repr

/-- The list of single-character strings of a string: Python iteration
over a `str` value, as `should_process_file` would perform when the
configured `extensions` value is itself a string. -/
def pyStrIter (s : String) : List String :=
  s.data.map (fun c => String.mk [c])

/-- `FolderConfig.__init__`: `path` and `plugin` are required (`KeyError`
when absent), `recursive` defaults to `False`, `extensions` defaults to
`['.tiff', '.tif', '.jpg']`, and every other key is passed through as
plugin configuration.  A non-string `path` makes `Path(...)` raise
(`badValue`). -/
def mkFolderConfig (e : Entry) : Except ParseSkip FolderConfig :=
  match e.lookup "path" with
  | none => .error (.missingField "path")
  | some (.str p) =>
    let recursive := match e.lookup "recursive" with
      | none => false
      | some v => v.truthy
    let extensions := match e.lookup "extensions" with
      | none => [".tiff", ".tif", ".jpg"]
      | some (.strList xs) => xs
      | some (.str s) => pyStrIter s
      | some (.bool _) => []
    match e.lookup "plugin" with
    | none => .error (.missingField "plugin")
    | some (.str g) =>
      .ok { path := p, recursive := recursive, extensions := extensions,
            plugin := g,
            pluginConfig := e.filter (fun kv =>
              kv.1 ∉ ["path", "recursive", "extensions", "plugin"]) }
    | some _ => .error .badValue
  | some _ => .error .badValue

/-- One iteration of the `hump_yard` `ConfigReader._parse_config` loop:
a valid entry is added (with a debug log); an entry raising `KeyError`
is skipped with an error-level `Missing required field` log; any other
exception is skipped with an error-level `Error parsing` log. -/
def parseFolderEntry (e : Entry) : Option FolderConfig × LogEvent :=
  match mkFolderConfig e with
  | .ok fc => (some fc, ⟨.debug, "Added folder config"⟩)
  | .error (.missingField f) =>
    (none, ⟨.error, "Missing required field in folder config: " ++ f⟩)
  | .error .badValue => (none, ⟨.error, "Error parsing folder config"⟩)

/-- `ConfigReader._parse_config` from `hump_yard/config_reader.py`: fold
over the `folders` entries, accumulating the accepted rules (in order)
and the emitted log records. -/
def parse_config (entries : List Entry) : List FolderConfig × List LogEvent :=
  entries.foldl
    (fun acc e =>
      let r := parseFolderEntry e
      (acc.1 ++ r.1.toList, acc.2 ++ [r.2]))
    ([], [])

/-- Python `str.startswith`. -/
def pyStartsWith (s pre : String) : Bool :=
  pre.data.isPrefixOf s.data

/-- The comment-entry test of `file_monitor/config_reader.py`:
`'_comment' in folder_data and len(folder_data) <= 3`. -/
def isCommentEntry (e : Entry) : Bool :=
  (e.lookup "_comment").isSome && e.length ≤ 3

/-- One iteration of the `file_monitor` `ConfigReader._parse_config` loop:
comment-only entries and entries whose `path` begins with the placeholder
marker `/absolute/path/` are skipped with a debug-level log; a non-string
`path` makes `.startswith` raise and the entry is skipped with an
error-level log; all other entries proceed as in the `hump_yard` loop. -/
def parseFolderEntryFm (e : Entry) : Option FolderConfig × LogEvent :=
  if isCommentEntry e then
    (none, ⟨.debug, "Skipping example/comment entry in config"⟩)
  else
    match e.lookup "path" with
    | some (.str s) =>
      if pyStartsWith s "/absolute/path/" then
        (none, ⟨.debug, "Skipping example entry with placeholder path"⟩)
      else parseFolderEntry e
    | some _ => (none, ⟨.error, "Error parsing folder config"⟩)
    | none => parseFolderEntry e

/-- `ConfigReader._parse_config` from `file_monitor/config_reader.py`. -/
def parse_config_fm (entries : List Entry) : List FolderConfig × List LogEvent :=
  entries.foldl
    (fun acc e =>
      let r := parseFolderEntryFm e
      (acc.1 ++ r.1.toList, acc.2 ++ [r.2]))
    ([], [])

/-! ## The process supervisor (`hump_yard/cli.py`) -/

/-- Python `str.strip` whitespace test (ASCII whitespace). -/
def isPySpace (c : Char) : Bool :=
  c == ' ' || c == '\t' || c == '\n' || c == '\r' || c == '\x0b' || c == '\x0c'

/-- Python `str.strip()`: drop whitespace from both ends. -/
def pyStrip (s : String) : String :=
  String.mk (((s.data.dropWhile isPySpace).reverse.dropWhile isPySpace).reverse)

/-- Parse a digit group with Python's underscore rule (single underscores
allowed only between digits), accumulating the value. -/
def pyDigitsAux : Nat → List Char → Option Nat
  | acc, [] => some acc
  | acc, '_' :: c :: rest =>
    if c.isDigit then pyDigitsAux (acc * 10 + (c.toNat - 48)) rest else none
  | _, ['_'] => none
  | acc, c :: rest =>
    if c.isDigit then pyDigitsAux (acc * 10 + (c.toNat - 48)) rest else none

/-- Parse a non-empty decimal digit sequence (Python underscore rule). -/
def pyDigits : List Char → Option Nat
  | [] => none
  | c :: rest =>
    if c.isDigit then pyDigitsAux (c.toNat - 48) rest else none

/-- Python `int(s)` on a decimal string: surrounding whitespace is
ignored, an optional single sign precedes the digits; `none` models the
`ValueError` raised when the text does not parse as an integer. -/
def pyInt (s : String) : Option Int :=
  match (pyStrip s).data with
  | '+' :: rest => (pyDigits rest).map Int.ofNat
  | '-' :: rest => (pyDigits rest).map (fun n => -(n : Int))
  | cs => (pyDigits cs).map Int.ofNat

/-- `read_pid`: `none` when the PID file is absent; otherwise
`int(content.strip())`, with `ValueError` turned into `none`.  (`int`
itself ignores surrounding whitespace, so the explicit `strip` is
absorbed by `pyInt`.) -/
def read_pid (content : Option String) : Option Int :=
  content.bind pyInt

/-- `cmd_status`: the pair (exit code, whether the stale PID file was
removed).  A missing PID record — and, by Python falsiness of `0`, a
recorded PID of `0` — exits 3 without touching the file; a live recorded
PID exits 0; a stale one is purged and exits 3. -/
def cmd_status (pid? : Option Int) (alive : Int → Bool) : Nat × Bool :=
  match pid? with
  | none => (3, false)
  | some pid =>
    if pid = 0 then (3, false)
    else if alive pid then (0, false)
    else (3, true)

/-- Observable steps of `cmd_start` up to entering the daemon body. -/
inductive StartAction where
  | errAlreadyRunning (pid : Int)
  | removeStalePid
  | errNoConfig
  | writePid
  | runDaemon
  | daemonize
  deriving DecidableEq, Repr

/-- `cmd_start`: the trace of observable steps and the exit code (`none`
when control proceeds into the daemon body).  A recorded live PID aborts
with the already-running error and exit code 1 before anything is
written; a stale record is removed; a missing configuration file aborts;
otherwise the daemon body runs (writing its own PID record) either in the
foreground or detached. -/
def cmd_start (pid? : Option Int) (alive : Int → Bool) (configExists : Bool)
    (foreground : Bool) : List StartAction × Option Nat :=
  let livePid : Option Int := match pid? with
    | some pid => if pid ≠ 0 && alive pid then some pid else none
    | none => none
  match livePid with
  | some pid => ([.errAlreadyRunning pid], some 1)
  | none =>
    let stale : List StartAction := match pid? with
      | some pid => if pid ≠ 0 then [.removeStalePid] else []
      | none => []
    if !configExists then (stale ++ [.errNoConfig], some 1)
    else if foreground then (stale ++ [.writePid, .runDaemon], none)
    else (stale ++ [.daemonize], none)

/-- Observable steps of `cmd_stop`. -/
inductive StopAction where
  | sigterm (pid : Int)
  | sleep (ms : Nat)
  | poll (i : Nat)
  | removePid
  | sigkill (pid : Int)
  deriving DecidableEq, Repr

/-- The bounded polling loop of `cmd_stop`: up to `fuel` rounds of
sleeping 500 ms and probing liveness (`alive i` is the probe result of
round `i`); the PID record is removed as soon as a probe reports the
process gone, and after the last round a still-live process is force
killed before the record is removed. -/
def stopLoop (pid : Int) (alive : Nat → Bool) : Nat → Nat → List StopAction
  | _, 0 => [.sigkill pid, .removePid]
  | i, fuel + 1 =>
    .sleep 500 :: .poll i ::
      (if alive i then stopLoop pid alive (i + 1) fuel else [.removePid])

/-- `cmd_stop`: the trace of observable steps and the exit code (`none`
for a normal return).  No (or a falsy) recorded PID exits 1; a stale
record is purged and exits 1; otherwise SIGTERM is sent first, liveness
is polled at most 10 times at 500 ms intervals, and SIGKILL is sent only
when every poll still reported the process alive. -/
def cmd_stop (pid? : Option Int) (aliveNow : Int → Bool) (alive : Nat → Bool) :
    List StopAction × Option Nat :=
  match pid? with
  | none => ([], some 1)
  | some pid =>
    if pid = 0 then ([], some 1)
    else if !aliveNow pid then ([.removePid], some 1)
    else (.sigterm pid :: stopLoop pid alive 0 10, none)

/-! ## Concrete fixtures used by witnesses and counterexamples -/

/-- Is a stop action a liveness poll? -/
def isPollAction : StopAction → Bool
  | .poll _ => true
  | _ => false

/-- A folder entry with the required `path` field missing. -/
def missingPathEntry : Entry := [("plugin", .str "p")]

/-- A well-formed folder entry. -/
def validEntry : Entry := [("path", .str "/watch"), ("plugin", .str "exif")]

/-- The rule built from `validEntry`. -/
def validFc : FolderConfig :=
  { path := "/watch", recursive := false,
    extensions := [".tiff", ".tif", ".jpg"], plugin := "exif", pluginConfig := [] }

/-- A template entry whose `path` carries the placeholder marker. -/
def placeholderEntry : Entry :=
  [("path", .str "/absolute/path/to/folder"), ("plugin", .str "rename")]

/-- A comment-only template entry. -/
def commentEntry : Entry :=
  [("_comment", .str "Example configuration"),
   ("path", .str "/absolute/path/to/folder"), ("plugin", .str "rename")]

/-- A non-recursive rule on `/watch` accepting `.jpg` files. -/
def nonRecursiveRule : FolderConfig :=
  { path := "/watch", recursive := false, extensions := [".jpg"],
    plugin := "noop", pluginConfig := [] }

/-- A rule whose configured path is itself a file path; used to exhibit
the case-sensitivity of the path-prefix comparison. -/
def fileRule : FolderConfig :=
  { path := "/watch/a.jpg", recursive := false, extensions := [".jpg"],
    plugin := "noop", pluginConfig := [] }

/-- Map a case-changing function over a rule's configured extensions. -/
def mapExts (f : String → String) (fc : FolderConfig) : FolderConfig :=
  { fc with extensions := fc.extensions.map f }

/-- Flip a rule's `recursive` flag to a given value. -/
def setRecursive (b : Bool) (fc : FolderConfig) : FolderConfig :=
  { fc with recursive := b }

/-- A rule routing everything under `/watch` to the `crash` plugin. -/
def crashRule : FolderConfig :=
  { path := "/watch", recursive := true, extensions := [],
    plugin := "crash", pluginConfig := [] }

/-- A plugin whose `process` always succeeds. -/
def noopPlugin : Plugin :=
  { name := "noop", version := "1.0",
    canHandle := fun _ => true,
    processResult := fun _ _ => .ok true }

/-- A plugin whose `process` always raises. -/
def crashPlugin : Plugin :=
  { name := "crash", version := "1.0",
    canHandle := fun _ => true,
    processResult := fun _ _ => .error ⟨"boom"⟩ }

end HumpYard

namespace HumpYard

/-! ## C4: duplicate registration -/

/-- C4: for every registry state and every plugin whose name already
exists as a key, `register_plugin` fails with the registration-conflict
(`ValueError`) message, does not overwrite the existing entry, and
returns the registry mapping exactly as it was before the attempt. -/
theorem C4_register_conflict (reg : Registry) (p : Plugin)
    (h : (reg.lookup p.name).isSome = true) :
    register_plugin reg p =
      (some ("Plugin " ++ p.name ++ " already registered"), reg) := by
  simp [register_plugin, h]

/-- Witness for C4: registering `noopPlugin` twice fails the second time
and leaves the one-entry registry unchanged. -/
theorem C4_register_conflict_witness :
    register_plugin [("noop", noopPlugin)] noopPlugin =
      (some ("Plugin noop already registered"), [("noop", noopPlugin)]) :=
  C4_register_conflict [("noop", noopPlugin)] noopPlugin rfl

/-! ## C6: status exit codes -/

/-- C6: `cmd_status` exits 0 exactly when the PID record references a
live process (a recorded PID of `0` being treated as no record, by Python
falsiness); with no PID record it exits 3 without touching the file; with
a stale record it purges the record and exits 3. -/
theorem C6_status_exit_codes (pid? : Option Int) (alive : Int → Bool) :
    ((cmd_status pid? alive).1 = 0 ↔ ∃ p, pid? = some p ∧ p ≠ 0 ∧ alive p = true) ∧
    (pid? = none → cmd_status pid? alive = (3, false)) ∧
    (∀ p, pid? = some p → p ≠ 0 → alive p = false → cmd_status pid? alive = (3, true)) := by
  refine ⟨?_, ?_, ?_⟩
  · cases pid? with
    | none => simp [cmd_status]
    | some p =>
      by_cases h0 : p = 0
      · subst h0; simp [cmd_status]
      · by_cases ha : alive p
        · simp [cmd_status, h0, ha]
        · simp [cmd_status, h0, ha]
  · intro h; subst h; rfl
  · intro p hp h0 ha; subst hp; simp [cmd_status, h0, ha]

/-- Witness for C6: a stale record (PID 5, process dead) is purged and
the exit code is 3. -/
theorem C6_status_exit_codes_witness :
    cmd_status (some 5) (fun _ => false) = (3, true) :=
  (C6_status_exit_codes (some 5) (fun _ => false)).2.2 5 rfl (by decide) rfl

/-! ## C7: start while already running -/

/-- C7: when a live daemon process is already recorded, `cmd_start`
fails with the already-running error and exit code 1, and neither writes
a PID record nor removes the existing one. -/
theorem C7_start_already_running (pid? : Option Int) (alive : Int → Bool)
    (configExists foreground : Bool) (p : Int)
    (hp : pid? = some p) (h0 : p ≠ 0) (ha : alive p = true) :
    cmd_start pid? alive configExists foreground = ([.errAlreadyRunning p], some 1) ∧
    StartAction.writePid ∉ (cmd_start pid? alive configExists foreground).1 ∧
    StartAction.removeStalePid ∉ (cmd_start pid? alive configExists foreground).1 := by
  subst hp
  have : cmd_start (some p) alive configExists foreground =
      ([.errAlreadyRunning p], some 1) := by
    simp [cmd_start, h0, ha]
  refine ⟨this, ?_, ?_⟩ <;> simp [this]

/-- Witness for C7: starting with PID 7 recorded and alive fails with the
already-running error and writes nothing. -/
theorem C7_start_already_running_witness :
    cmd_start (some 7) (fun _ => true) true true = ([.errAlreadyRunning 7], some 1) :=
  (C7_start_already_running (some 7) (fun _ => true) true true 7 rfl (by decide) rfl).1

/-! ## C10: unparseable PID file content -/

/-- C10: when the PID file exists but its content does not parse as an
integer, `read_pid` returns `none`, so `cmd_status` exits 3 without
purging anything and `cmd_start` never reports already-running. -/
theorem C10_unparseable_pid (content : String) (alive : Int → Bool)
    (configExists foreground : Bool)
    (h : pyInt content = none) :
    read_pid (some content) = none ∧
    cmd_status (read_pid (some content)) alive = (3, false) ∧
    (∀ p, StartAction.errAlreadyRunning p ∉
        (cmd_start (read_pid (some content)) alive configExists foreground).1) := by
  have hr : read_pid (some content) = none := by simp [read_pid, h]
  refine ⟨hr, by simp [hr, cmd_status], ?_⟩
  intro p
  rw [hr]
  cases configExists <;> cases foreground <;> simp [cmd_start]

/-- Witness for C10: PID file content `"garbage"` parses to nothing;
status exits 3 and nothing is purged. -/
theorem C10_unparseable_pid_witness :
    cmd_status (read_pid (some "garbage")) (fun _ => true) = (3, false) :=
  (C10_unparseable_pid "garbage" (fun _ => true) true true (by decide)).2.1

/-! ## C5: stop escalation -/

/-- The polling loop always ends by removing the PID record, exactly once. -/
theorem stopLoop_shape (pid : Int) (alive : Nat → Bool) :
    ∀ fuel i, ∃ pre, stopLoop pid alive i fuel = pre ++ [.removePid] ∧
      StopAction.removePid ∉ pre := by
  intro fuel
  induction fuel with
  | zero => exact fun i => ⟨[.sigkill pid], rfl, by simp⟩
  | succ n ih =>
    intro i
    by_cases h : alive i
    · obtain ⟨pre, hp, hn⟩ := ih (i + 1)
      refine ⟨.sleep 500 :: .poll i :: pre, ?_, ?_⟩
      · simp [stopLoop, h, hp]
      · simp [hn]
    · exact ⟨[.sleep 500, .poll i], by simp [stopLoop, h], by simp⟩

/-- The force-kill step occurs in the polling loop exactly when every
poll reported the process still alive. -/
theorem stopLoop_sigkill (pid : Int) (alive : Nat → Bool) :
    ∀ fuel i, (StopAction.sigkill pid ∈ stopLoop pid alive i fuel) ↔
      ∀ j, j < fuel → alive (i + j) = true := by
  intro fuel
  induction fuel with
  | zero => intro i; simp [stopLoop]
  | succ n ih =>
    intro i
    by_cases h : alive i
    · rw [stopLoop]
      simp only [h, if_true, List.mem_cons]
      rw [ih (i + 1)]
      constructor
      · rintro (hc | hc | hrest)
        · cases hc
        · cases hc
        · intro j hj
          cases j with
          | zero => simpa using h
          | succ k =>
            have := hrest k (by omega)
            simpa [Nat.add_comm, Nat.add_assoc, Nat.add_left_comm] using this
      · intro hall
        refine Or.inr (Or.inr ?_)
        intro k hk
        have := hall (k + 1) (by omega)
        simpa [Nat.add_comm, Nat.add_assoc, Nat.add_left_comm] using this
    · rw [stopLoop]
      simp only [h, if_false]
      constructor
      · intro hm; simp at hm
      · intro hall
        have := hall 0 (by omega)
        simp [h] at this

/-- The polling loop polls at most `fuel` times. -/
theorem stopLoop_polls (pid : Int) (alive : Nat → Bool) :
    ∀ fuel i, (stopLoop pid alive i fuel).countP isPollAction ≤ fuel := by
  intro fuel
  induction fuel with
  | zero => intro i; simp [stopLoop, List.countP_cons, isPollAction]
  | succ n ih =>
    intro i
    by_cases h : alive i
    · have := ih (i + 1)
      simp only [stopLoop, h, if_true]
      simp [List.countP_cons, isPollAction]
      omega
    · simp [stopLoop, h, List.countP_cons, isPollAction]

/-- Every sleep in the polling loop is the fixed 500 ms interval. -/
theorem stopLoop_sleep (pid : Int) (alive : Nat → Bool) :
    ∀ fuel i ms, StopAction.sleep ms ∈ stopLoop pid alive i fuel → ms = 500 := by
  intro fuel
  induction fuel with
  | zero => intro i ms hm; simp [stopLoop] at hm
  | succ n ih =>
    intro i ms hm
    rw [stopLoop] at hm
    by_cases h : alive i
    · simp only [h, if_true, List.mem_cons] at hm
      rcases hm with hc | hc | hrest
      · cases hc; rfl
      · cases hc
      · exact ih (i + 1) ms hrest
    · simp only [h, if_false, List.mem_cons] at hm
      rcases hm with hc | hc | hc
      · cases hc; rfl
      · cases hc
      · simp at hc

/-- C5: `cmd_stop` on a live recorded daemon sends the graceful SIGTERM
first; it then polls liveness at most 10 times, sleeping the fixed 500 ms
interval before each poll; SIGKILL is sent exactly when every one of the
10 polls still reported the process alive; and the PID record is removed
exactly once, as the final step, once the process is confirmed (or
forced) stopped. -/
theorem C5_stop_escalation (pid : Int) (aliveNow : Int → Bool) (alive : Nat → Bool)
    (h0 : pid ≠ 0) (ha : aliveNow pid = true) :
    ∃ tr, cmd_stop (some pid) aliveNow alive = (tr, none) ∧
      tr.head? = some (.sigterm pid) ∧
      (∃ pre, tr = pre ++ [.removePid] ∧ StopAction.removePid ∉ pre) ∧
      ((StopAction.sigkill pid ∈ tr) ↔ ∀ j, j < 10 → alive j = true) ∧
      tr.countP isPollAction ≤ 10 ∧
      (∀ ms, StopAction.sleep ms ∈ tr → ms = 500) := by
  have hc : cmd_stop (some pid) aliveNow alive =
      (.sigterm pid :: stopLoop pid alive 0 10, none) := by
    simp [cmd_stop, h0, ha]
  refine ⟨.sigterm pid :: stopLoop pid alive 0 10, hc, rfl, ?_, ?_, ?_, ?_⟩
  · obtain ⟨pre, hp, hn⟩ := stopLoop_shape pid alive 10 0
    exact ⟨.sigterm pid :: pre, by rw [hp]; rfl, by simp [hn]⟩
  · rw [List.mem_cons]
    have := stopLoop_sigkill pid alive 10 0
    simp only [Nat.zero_add] at this
    rw [this]
    simp
  · have := stopLoop_polls pid alive 10 0
    simp [List.countP_cons, isPollAction]
    omega
  · intro ms hm
    rcases List.mem_cons.mp hm with hc' | hrest
    · cases hc'
    · exact stopLoop_sleep pid alive 10 0 ms hrest

/-- Witness for C5: stopping PID 5 when the process exits after two
polls: SIGTERM first, no SIGKILL, PID record removed last. -/
theorem C5_stop_escalation_witness :
    ∃ tr, cmd_stop (some 5) (fun _ => true) (fun i => decide (i < 2)) = (tr, none) ∧
      tr.head? = some (.sigterm 5) ∧
      (∃ pre, tr = pre ++ [.removePid] ∧ StopAction.removePid ∉ pre) ∧
      ((StopAction.sigkill 5 ∈ tr) ↔ ∀ j, j < 10 → decide (j < 2) = true) ∧
      tr.countP isPollAction ≤ 10 ∧
      (∀ ms, StopAction.sleep ms ∈ tr → ms = 500) :=
  C5_stop_escalation 5 (fun _ => true) (fun i => decide (i < 2)) (by decide) rfl

/-! ## C8 and C9: configuration loading -/

/-- The parsing loops accumulate exactly the per-entry outcomes: the
accepted rules in order and one log record per entry. -/
theorem parse_foldl (f : Entry → Option FolderConfig × LogEvent) :
    ∀ (entries : List Entry) (acc : List FolderConfig × List LogEvent),
      entries.foldl
          (fun acc e =>
            let r := f e
            (acc.1 ++ r.1.toList, acc.2 ++ [r.2])) acc =
        (acc.1 ++ entries.filterMap (fun e => (f e).1),
         acc.2 ++ entries.map (fun e => (f e).2)) := by
  intro entries
  induction entries with
  | nil => intro acc; simp
  | cons e es ih =>
    intro acc
    rw [List.foldl_cons, ih]
    rw [List.filterMap_cons]
    cases h : (f e).1 <;> simp [h]

/-- The `hump_yard` parse as per-entry outcomes. -/
theorem parse_config_eq (entries : List Entry) :
    parse_config entries =
      (entries.filterMap (fun e => (parseFolderEntry e).1),
       entries.map (fun e => (parseFolderEntry e).2)) := by
  unfold parse_config
  rw [parse_foldl]
  simp

/-- The `file_monitor` parse as per-entry outcomes. -/
theorem parse_config_fm_eq (entries : List Entry) :
    parse_config_fm entries =
      (entries.filterMap (fun e => (parseFolderEntryFm e).1),
       entries.map (fun e => (parseFolderEntryFm e).2)) := by
  unfold parse_config_fm
  rw [parse_foldl]
  simp

/-- C8 (amended): in the `hump_yard` loader, each folder entry missing a
required field is skipped — contributing no rule, only an error-level
`Missing required field` log record — and loading continues: the rule set
is exactly the valid entries, in order, and every valid entry is still
registered. -/
theorem C8_missing_field_skipped (entries : List Entry) :
    parse_config entries =
      (entries.filterMap (fun e => (parseFolderEntry e).1),
       entries.map (fun e => (parseFolderEntry e).2)) ∧
    (∀ e f, mkFolderConfig e = .error (.missingField f) →
      (parseFolderEntry e).1 = none ∧
      (parseFolderEntry e).2 =
        ⟨.error, "Missing required field in folder config: " ++ f⟩) ∧
    (∀ e fc, mkFolderConfig e = .ok fc → (parseFolderEntry e).1 = some fc) ∧
    (∀ e ∈ entries, ∀ fc, mkFolderConfig e = .ok fc →
      fc ∈ (parse_config entries).1) := by
  refine ⟨parse_config_eq entries, ?_, ?_, ?_⟩
  · intro e f h
    simp [parseFolderEntry, h]
  · intro e fc h
    simp [parseFolderEntry, h]
  · intro e he fc h
    rw [parse_config_eq]
    exact List.mem_filterMap.mpr ⟨e, he, by simp [parseFolderEntry, h]⟩

/-- Witness for C8: alongside an entry missing `path`, the valid entry is
still registered. -/
theorem C8_missing_field_skipped_witness :
    validFc ∈ (parse_config [missingPathEntry, validEntry]).1 :=
  (C8_missing_field_skipped [missingPathEntry, validEntry]).2.2.2
    validEntry (by simp) validFc rfl

/-- Counterexample for C8 as stated: the entry missing `path` is indeed
skipped, but the log record it produces is at **error** level, not the
claimed warning level. -/
theorem C8_counterexample :
    (parse_config [missingPathEntry]).1 = [] ∧
    (parse_config [missingPathEntry]).2 =
      [⟨LogLevel.error, "Missing required field in folder config: path"⟩] ∧
    LogLevel.error ≠ LogLevel.warning := by decide

/-- C9 (amended): in the `file_monitor` loader, placeholder/template
entries — comment-only entries, and entries whose `path` begins with the
placeholder marker — are skipped with only a debug-level log (no
warning), every rule of the result comes from some non-placeholder entry,
and the log/rule outcomes are exactly the per-entry ones. -/
theorem C9_placeholder_skipped (entries : List Entry) :
    parse_config_fm entries =
      (entries.filterMap (fun e => (parseFolderEntryFm e).1),
       entries.map (fun e => (parseFolderEntryFm e).2)) ∧
    (∀ e, isCommentEntry e = true →
      parseFolderEntryFm e =
        (none, ⟨.debug, "Skipping example/comment entry in config"⟩)) ∧
    (∀ e s, isCommentEntry e = false → e.lookup "path" = some (.str s) →
      pyStartsWith s "/absolute/path/" = true →
      parseFolderEntryFm e =
        (none, ⟨.debug, "Skipping example entry with placeholder path"⟩)) ∧
    (∀ fc ∈ (parse_config_fm entries).1, ∃ e ∈ entries,
      (parseFolderEntryFm e).1 = some fc) := by
  refine ⟨parse_config_fm_eq entries, ?_, ?_, ?_⟩
  · intro e h
    simp [parseFolderEntryFm, h]
  · intro e s hc hl hs
    simp [parseFolderEntryFm, hc, hl, hs]
  · intro fc hfc
    rw [parse_config_fm_eq] at hfc
    obtain ⟨e, he, h⟩ := List.mem_filterMap.mp hfc
    exact ⟨e, he, h⟩

/-- Witness for C9: the comment-only entry is skipped with a debug log. -/
theorem C9_placeholder_skipped_witness :
    parseFolderEntryFm commentEntry =
      (none, ⟨.debug, "Skipping example/comment entry in config"⟩) :=
  (C9_placeholder_skipped []).2.1 commentEntry (by decide)

/-- Counterexample for C9 as stated: the `hump_yard` loader — one of the
two configuration readers the claim covers — has no placeholder handling
at all: an entry whose `path` begins with the placeholder marker is
loaded as an ordinary rule and does appear in the resulting rule set. -/
theorem C9_counterexample :
    pyStartsWith "/absolute/path/to/folder" "/absolute/path/" = true ∧
    (parse_config [placeholderEntry]).1 =
      [{ path := "/absolute/path/to/folder", recursive := false,
         extensions := [".tiff", ".tif", ".jpg"], plugin := "rename",
         pluginConfig := [] }] := by decide

/-! ## C1 and C2: rule matching -/

/-- `find?` only depends on the values of the predicate on the list. -/
theorem find?_congrList {α : Type} (p q : α → Bool) :
    ∀ l : List α, (∀ x ∈ l, p x = q x) → l.find? p = l.find? q := by
  intro l
  induction l with
  | nil => intro _; rfl
  | cons x xs ih =>
    intro h
    rw [List.find?_cons, List.find?_cons, h x (List.mem_cons_self x xs)]
    cases hq : q x with
    | true => rfl
    | false => exact ih (fun y hy => h y (List.mem_cons_of_mem _ hy))

/-- Matching commutes with any per-rule transformation that preserves the
per-rule test. -/
theorem get_folder_config_map (file : FsPath) (g : FolderConfig → FolderConfig)
    (hg : ∀ fc, ruleMatches (g fc) file = ruleMatches fc file) :
    ∀ folders : List FolderConfig,
      get_folder_config (folders.map g) file =
        (get_folder_config folders file).map g := by
  intro folders
  induction folders with
  | nil => rfl
  | cons fc fs ih =>
    rw [List.map_cons]
    show List.find? (fun x => ruleMatches x file) (g fc :: fs.map g) =
      Option.map g (List.find? (fun x => ruleMatches x file) (fc :: fs))
    simp only [List.find?_cons]
    rw [hg fc]
    cases h : ruleMatches fc file with
    | true => rfl
    | false => exact ih

/-- C1 (amended): the rule-matching operation ignores the `recursive`
flag entirely — flipping the flag on every rule yields the same match
(with the flag flipped on the returned rule) — and in particular a rule
whose path contains the file, recursive or not, does match a file in a
proper subdirectory whenever its extension filter accepts it.  The flag
only controls how the filesystem observer is scheduled. -/
theorem C1_recursive_ignored (folders : List FolderConfig) (file : FsPath) (b : Bool) :
    get_folder_config (folders.map (setRecursive b)) file =
      (get_folder_config folders file).map (setRecursive b) ∧
    (∀ fc rest, (components fc.path).isPrefixOf file = true →
      fc.should_process_file file = true →
      get_folder_config (fc :: rest) file = some fc) := by
  constructor
  · exact get_folder_config_map file (setRecursive b) (fun _ => rfl) folders
  · intro fc rest h1 h2
    unfold get_folder_config
    rw [List.find?_cons_of_pos]
    simp [ruleMatches, h1, h2]

/-- Witness for C1 (amended): the non-recursive `/watch` rule matches a
file two levels below its path. -/
theorem C1_recursive_ignored_witness :
    get_folder_config [nonRecursiveRule] (components "/watch/sub/a.jpg") =
      some nonRecursiveRule :=
  (C1_recursive_ignored [] (components "/watch/sub/a.jpg") false).2
    nonRecursiveRule [] (by decide) (by decide)

/-- Counterexample for C1 as stated: `get_folder_config` returns the
rule with `recursive = false` for a file in a proper subdirectory (two
components below the configured path) whose extension the filter
accepts. -/
theorem C1_counterexample :
    nonRecursiveRule.recursive = false ∧
    (components nonRecursiveRule.path).isPrefixOf (components "/watch/sub/a.jpg") = true ∧
    (components "/watch/sub/a.jpg").length = (components nonRecursiveRule.path).length + 2 ∧
    get_folder_config [nonRecursiveRule] (components "/watch/sub/a.jpg") =
      some nonRecursiveRule := by decide

/-- A case-preserving map of the extension list does not change the
lower-cased membership test. -/
theorem anyLower_map (x : String) (f : String → String)
    (hf : ∀ s, lowerStr (f s) = lowerStr s) :
    ∀ exts : List String,
      ((exts.map f).any fun ext => x == lowerStr ext) =
        (exts.any fun ext => x == lowerStr ext) := by
  intro exts
  induction exts with
  | nil => rfl
  | cons e es ih => simp only [List.map_cons, List.any_cons, hf e, ih]

/-- The extension filter only depends on the lower-cased extensions. -/
theorem should_process_file_mapExts (fc : FolderConfig) (f : String → String)
    (hf : ∀ s, lowerStr (f s) = lowerStr s) (file : FsPath) :
    (mapExts f fc).should_process_file file = fc.should_process_file file := by
  unfold mapExts FolderConfig.should_process_file
  cases hE : fc.extensions with
  | nil => simp
  | cons e es =>
    simp only [List.map_cons, List.isEmpty_cons, Bool.false_eq_true, if_false]
    exact anyLower_map _ f hf (e :: es)

/-- The per-rule test only depends on the lower-cased extensions. -/
theorem ruleMatches_mapExts (f : String → String)
    (hf : ∀ s, lowerStr (f s) = lowerStr s) (fc : FolderConfig) (file : FsPath) :
    ruleMatches (mapExts f fc) file = ruleMatches fc file := by
  unfold ruleMatches
  rw [should_process_file_mapExts fc f hf file]
  rfl

/-- Replacing the final component of the probed path does not change a
component-wise prefix test by a list of at most the directory's length. -/
theorem isPrefixOf_concat (p : List String) :
    ∀ (l : List String) (a b : String), p.length ≤ l.length →
      p.isPrefixOf (l ++ [a]) = p.isPrefixOf (l ++ [b]) := by
  induction p with
  | nil => intro l a b _; cases l <;> rfl
  | cons x xs ih =>
    intro l a b h
    cases l with
    | nil => simp at h
    | cons y ys =>
      have h' : xs.length ≤ ys.length := by simpa using h
      show ((x == y) && xs.isPrefixOf (ys ++ [a])) =
        ((x == y) && xs.isPrefixOf (ys ++ [b]))
      rw [ih ys a b h']

/-- The per-rule test is unchanged when the file's final component is
replaced by one with the same lower-cased suffix, provided the rule's
path has no more components than the file's directory. -/
theorem ruleMatches_concat (fc : FolderConfig) (dir : FsPath) (name name' : String)
    (hlen : (components fc.path).length ≤ dir.length)
    (hsuf : lowerStr (pySuffix name') = lowerStr (pySuffix name)) :
    ruleMatches fc (dir ++ [name']) = ruleMatches fc (dir ++ [name]) := by
  unfold ruleMatches FolderConfig.should_process_file
  rw [isPrefixOf_concat _ dir name' name hlen, List.getLastD_concat,
    List.getLastD_concat, hsuf]

/-- C2 (amended): `get_folder_config` returns `none` exactly when no rule
passes the per-rule test (path a component-wise prefix of the resolved
file path, extension set empty or containing the file's lower-cased
suffix); any returned rule passes the test and is the first declared rule
to do so, and conversely the first passing rule is returned.  Changing
the letter case of the configured extensions never changes the result;
changing the letter case of the file's suffix does not change the result
provided no rule's configured path reaches the file's final component
(the component-wise path comparison itself is case-sensitive). -/
theorem C2_first_match (folders : List FolderConfig) (file : FsPath) :
    (get_folder_config folders file = none ↔
      ∀ fc ∈ folders, ruleMatches fc file = false) ∧
    (∀ fc, get_folder_config folders file = some fc →
      ruleMatches fc file = true ∧
      ∃ pre suf, folders = pre ++ fc :: suf ∧
        ∀ fc2 ∈ pre, ruleMatches fc2 file = false) ∧
    (∀ pre fc suf, folders = pre ++ fc :: suf →
      (∀ fc2 ∈ pre, ruleMatches fc2 file = false) →
      ruleMatches fc file = true →
      get_folder_config folders file = some fc) ∧
    (∀ f, (∀ s, lowerStr (f s) = lowerStr s) →
      get_folder_config (folders.map (mapExts f)) file =
        (get_folder_config folders file).map (mapExts f)) ∧
    (∀ dir name name', file = dir ++ [name] →
      (∀ fc ∈ folders, (components fc.path).length ≤ dir.length) →
      lowerStr (pySuffix name') = lowerStr (pySuffix name) →
      get_folder_config folders (dir ++ [name']) =
        get_folder_config folders file) := by
  refine ⟨?_, ?_, ?_, ?_, ?_⟩
  · rw [get_folder_config, List.find?_eq_none]
    simp only [Bool.not_eq_true]
  · intro fc h
    have h' := List.find?_eq_some.mp h
    refine ⟨h'.1, ?_⟩
    obtain ⟨pre, suf, heq, hall⟩ := h'.2
    exact ⟨pre, suf, heq, fun fc2 h2 => by simpa using hall fc2 h2⟩
  · intro pre fc suf heq hpre hfc
    exact List.find?_eq_some.mpr ⟨hfc, pre, suf, heq,
      fun fc2 h2 => by simp [hpre fc2 h2]⟩
  · intro f hf
    exact get_folder_config_map file (mapExts f)
      (fun fc => ruleMatches_mapExts f hf fc file) folders
  · intro dir name name' hfile hlen hsuf
    subst hfile
    exact find?_congrList _ _ folders
      (fun fc hm => ruleMatches_concat fc dir name name' (hlen fc hm) hsuf)

/-- Witness for C2 (amended): upper-casing the suffix of a file two
levels below the `/watch` rule's path does not change the match. -/
theorem C2_first_match_witness :
    get_folder_config [nonRecursiveRule] (["watch", "sub"] ++ ["a.JPG"]) =
      get_folder_config [nonRecursiveRule] ["watch", "sub", "a.jpg"] :=
  (C2_first_match [nonRecursiveRule] ["watch", "sub", "a.jpg"]).2.2.2.2
    ["watch", "sub"] "a.jpg" "a.JPG" rfl (by decide) (by decide)

/-- Counterexample for C2 as stated: for a rule whose configured path is
the file path itself, changing only the letter case of the file's suffix
changes the result — the extension filter accepts both spellings, but
the component-wise path comparison is case-sensitive. -/
theorem C2_counterexample :
    lowerStr (pySuffix ((components "/watch/a.JPG").getLastD "")) =
      lowerStr (pySuffix ((components "/watch/a.jpg").getLastD "")) ∧
    fileRule.should_process_file (components "/watch/a.JPG") = true ∧
    get_folder_config [fileRule] (components "/watch/a.jpg") = some fileRule ∧
    get_folder_config [fileRule] (components "/watch/a.JPG") = none := by decide

/-! ## C3: dispatcher fault isolation -/

/-- The `folder_monitor` dispatcher never lets an exception escape: every
dispatch produces an ordinary event list. -/
theorem process_file_ok (reg : Registry) (folders : List FolderConfig) :
    ∀ filePath, ∃ evs, process_file reg folders filePath = .ok evs := by
  intro filePath
  unfold process_file
  repeat' split
  all_goals exact ⟨_, rfl⟩

/-- Every event of a stream is dispatched: sequential dispatch never
aborts early. -/
theorem dispatchAll_ok (reg : Registry) (folders : List FolderConfig) :
    ∀ files, ∃ evss, dispatchAll reg folders files = .ok evss ∧
      evss.length = files.length := by
  intro files
  induction files with
  | nil => exact ⟨[], rfl, rfl⟩
  | cons f fs ih =>
    obtain ⟨evs, he⟩ := process_file_ok reg folders f
    obtain ⟨evss, hd, hl⟩ := ih
    refine ⟨evs :: evss, ?_, by simp [hl]⟩
    simp only [dispatchAll]
    rw [he, hd]
    rfl

/-- C3 (amended): in the `folder_monitor` dispatcher, an exception raised
by the plugin's `process` is caught, logged, and forwarded to the error
hook exactly once; no exception ever escapes `process_file`; and every
event of a stream is still dispatched.  (The abandoned `hamp_yard`
variant of `process_file`, by contrast, lets the exception propagate —
see the counterexample.) -/
theorem C3_dispatcher_isolation (reg : Registry) (folders : List FolderConfig) :
    (∀ filePath, ∃ evs, process_file reg folders filePath = .ok evs) ∧
    (∀ filePath fc plugin e,
      get_folder_config folders (components filePath) = some fc →
      get_plugin reg fc.plugin = some plugin →
      plugin.canHandle filePath = true →
      plugin.processResult filePath fc.pluginConfig = .error e →
      process_file reg folders filePath =
        .ok [.log .info ("Processing " ++ filePath ++ " with " ++ fc.plugin),
             .log .error ("Exception while processing " ++ filePath ++ ": " ++ e.msg),
             .errorHook filePath e]) ∧
    (∀ files, ∃ evss, dispatchAll reg folders files = .ok evss ∧
      evss.length = files.length) := by
  refine ⟨process_file_ok reg folders, ?_, dispatchAll_ok reg folders⟩
  intro filePath fc plugin e h1 h2 h3 h4
  simp [process_file, h1, h2, h3, h4]

/-- Witness for C3 (amended): the always-raising plugin's exception is
caught and forwarded to its error hook exactly once. -/
theorem C3_dispatcher_isolation_witness :
    process_file [("crash", crashPlugin)] [crashRule] "/watch/a.jpg" =
      .ok [.log .info "Processing /watch/a.jpg with crash",
           .log .error "Exception while processing /watch/a.jpg: boom",
           .errorHook "/watch/a.jpg" ⟨"boom"⟩] :=
  (C3_dispatcher_isolation [("crash", crashPlugin)] [crashRule]).2.1
    "/watch/a.jpg" crashRule crashPlugin ⟨"boom"⟩ (by decide) rfl rfl rfl

/-- Counterexample for C3 as stated: in the `hamp_yard` variant of
`process_file` (one of the two dispatch implementations the claim
covers), the exception raised by `process` propagates out of the
dispatch operation — the result is the exception itself, no events are
produced, and the error hook is never invoked. -/
theorem C3_counterexample :
    crashPlugin.processResult "/watch/a.jpg" [("plugin", .str "crash")] =
      .error ⟨"boom"⟩ ∧
    hamp_process_file [("crash", crashPlugin)]
      [("/watch", [("plugin", .str "crash")])] "/watch/a.jpg" =
      .error ⟨"boom"⟩ :=
  ⟨rfl, rfl⟩

end HumpYard

